import Mathlib

/-
Shallow embedding of the two S3 purge scripts:
  * src/deleting_s3_objects.py            (list_and_delete_objects: filtered scan, per-object delete)
  * src/python/s3_delete_objects_and_versions.py (delete_all_versions: unfiltered scan, batch delete)
Keys and other strings are modelled as lists of characters; the backend is
modelled by the sequence of listing pages it returns (one ListObjectVersions
call per page) and, for the batch script, by the sequence of DeleteObjects
responses.  The result of a run is the list of backend calls it issues and
the list of console outputs it prints, in order.
-/

namespace S3W

/-- One deletable unit: an object version or a delete marker, as the dicts
`{'Key': ..., 'VersionId': ...}` built by both scripts. -/
structure ObjRef where
  key : List Char
  versionId : List Char
deriving DecidableEq

/-- One page of a `list_object_versions` paginator: the `Versions` list and
the `DeleteMarkers` list of the response. -/
structure Page where
  versions : List ObjRef
  deleteMarkers : List ObjRef
deriving DecidableEq

/-- `hasPref w l` is true iff `w` is a prefix of `l` (Python `l.startswith(w)`). -/
def hasPref : List Char → List Char → Bool
  | [], _ => true
  | _ :: _, [] => false
  | w :: ws, c :: cs => w == c && hasPref ws cs

/-- `containsSub w l` is true iff `w` occurs contiguously in `l`
(Python `w in l` on strings); the empty `w` is contained in everything. -/
def containsSub (w : List Char) : List Char → Bool
  | [] => hasPref w []
  | c :: cs => hasPref w (c :: cs) || containsSub w cs

/-- The inner loop of the filtered scan: append to `acc` every entry whose key
contains `w` (lines 37-42 and 43-48 of deleting_s3_objects.py). -/
def filterAppend (w : List Char) (acc : List ObjRef) (entries : List ObjRef) : List ObjRef :=
  entries.foldl (fun a e => if containsSub w e.key then a ++ [e] else a) acc

/-- Processing one page in deleting_s3_objects.py: matching versions are
appended first, then matching delete markers. -/
def scanPage (w : List Char) (acc : List ObjRef) (page : Page) : List ObjRef :=
  filterAppend w (filterAppend w acc page.versions) page.deleteMarkers

/-- The whole pagination loop of deleting_s3_objects.py (lines 36-48):
`objects_to_delete` after all pages were processed. -/
def scanFiltered (w : List Char) (pages : List Page) : List ObjRef :=
  pages.foldl (scanPage w) []

/-- The inner loop of the unfiltered scan: append every entry
(lines 73-82 of s3_delete_objects_and_versions.py). -/
def appendAll (acc : List ObjRef) (entries : List ObjRef) : List ObjRef :=
  entries.foldl (fun a e => a ++ [e]) acc

/-- Processing one page in s3_delete_objects_and_versions.py: all versions
are appended first, then all delete markers. -/
def scanPageAll (acc : List ObjRef) (page : Page) : List ObjRef :=
  appendAll (appendAll acc page.versions) page.deleteMarkers

/-- The whole pagination loop of s3_delete_objects_and_versions.py
(lines 72-82): `objects_to_delete` after all pages were processed. -/
def scanAll (pages : List Page) : List ObjRef :=
  pages.foldl scanPageAll []

/-- A backend API call issued by either script. -/
inductive S3Call where
  | listVersionsCall (bucket pref : List Char) : S3Call
  | deleteObjectCall (bucket : List Char) (obj : ObjRef) : S3Call
  | deleteObjectsCall (bucket : List Char) (batch : List ObjRef) : S3Call
deriving DecidableEq

/-- Whether a backend call is a deletion API call
(`DeleteObject` or `DeleteObjects`). -/
def isDeleteCall : S3Call → Bool
  | S3Call.listVersionsCall _ _ => false
  | S3Call.deleteObjectCall _ _ => true
  | S3Call.deleteObjectsCall _ _ => true

/-- A console output event printed by either script. -/
inductive Output where
  | searching : Output
  | noMatches : Output
  | header (dryRun : Bool) : Output
  | line (o : ObjRef) : Output
  | dryRunNotice : Output
  | deletingBanner : Output
  | deletingLine (o : ObjRef) : Output
  | batchDeleted (count batchNo : Nat) : Output
  | completed : Output
deriving DecidableEq

/-- Result of one run: the backend calls issued and the lines printed,
each in order. -/
structure RunResult where
  calls : List S3Call
  outputs : List Output
deriving DecidableEq

/-- One per-key error inside a `DeleteObjects` response. -/
structure DeleteError where
  obj : ObjRef
  code : List Char
deriving DecidableEq

/-- Backend response to one `DeleteObjects` call: the keys it deleted and
the per-key errors it reports. -/
structure DeleteObjectsResponse where
  deleted : List ObjRef
  errors : List DeleteError
deriving DecidableEq

/-- src/deleting_s3_objects.py, `list_and_delete_objects(bucket, w-filtered)`:
scan all pages, report, and unless `dryRun` delete each candidate with a
single `DeleteObject` call.  `pages` are the listing pages the backend
returns (one listing call per page). -/
def list_and_delete_objects (bucket pref w : List Char) (dryRun : Bool)
    (pages : List Page) : RunResult :=
  let listCalls := pages.map (fun _ => S3Call.listVersionsCall bucket pref)
  let objs := scanFiltered w pages
  if objs.isEmpty then
    { calls := listCalls, outputs := [Output.searching, Output.noMatches] }
  else if dryRun then
    { calls := listCalls
      outputs := [Output.searching, Output.header dryRun] ++ objs.map Output.line
        ++ [Output.dryRunNotice] }
  else
    { calls := listCalls ++ objs.map (fun o => S3Call.deleteObjectCall bucket o)
      outputs := [Output.searching, Output.header dryRun] ++ objs.map Output.line
        ++ [Output.deletingBanner] ++ objs.map Output.deletingLine ++ [Output.completed] }

/-- The batches formed by
`for i in range(0, len(l), 1000): batch = l[i:i+1000]`
(lines 101-102 of s3_delete_objects_and_versions.py):
`range(0, n, 1000)` has `(n + 999) / 1000` elements and `l[i:i+1000]`
is `(l.drop i).take 1000`. -/
def pyBatches (l : List ObjRef) : List (List ObjRef) :=
  (List.range ((l.length + 999) / 1000)).map (fun j => (l.drop (1000 * j)).take 1000)

/-- src/python/s3_delete_objects_and_versions.py, `delete_all_versions`:
scan all pages without any filter, report, and unless `dryRun` delete the
candidates in batches of 1000 with `DeleteObjects` calls.  `responses` are
the backend responses to the successive `DeleteObjects` calls; the script
discards them (line 103 ignores the return value), so they do not influence
the result. -/
def delete_all_versions (bucket pref : List Char) (dryRun : Bool)
    (pages : List Page) (responses : List DeleteObjectsResponse) : RunResult :=
  let listCalls := pages.map (fun _ => S3Call.listVersionsCall bucket pref)
  let objs := scanAll pages
  if objs.isEmpty then
    { calls := listCalls, outputs := [Output.searching, Output.noMatches] }
  else if dryRun then
    { calls := listCalls
      outputs := [Output.searching, Output.header dryRun] ++ objs.map Output.line
        ++ [Output.dryRunNotice] }
  else
    { calls := listCalls ++ (pyBatches objs).map (fun b => S3Call.deleteObjectsCall bucket b)
      outputs := [Output.searching, Output.header dryRun] ++ objs.map Output.line
        ++ [Output.deletingBanner]
        ++ (pyBatches objs).enum.map (fun bi => Output.batchDeleted bi.2.length (bi.1 + 1))
        ++ [Output.completed] }

/-! ### Helper lemmas -/

theorem containsSub_nil (l : List Char) : containsSub [] l = true := by
  cases l <;> simp [containsSub, hasPref]

theorem filterAppend_eq (w : List Char) (acc entries : List ObjRef) :
    filterAppend w acc entries
      = acc ++ entries.filter (fun e => containsSub w e.key) := by
  induction entries generalizing acc with
  | nil => simp [filterAppend]
  | cons e es ih =>
    simp only [filterAppend, List.foldl_cons] at *
    by_cases h : containsSub w e.key
    · simp [h, ih, List.filter_cons]
    · simp [h, ih, List.filter_cons]

theorem appendAll_eq (acc entries : List ObjRef) :
    appendAll acc entries = acc ++ entries := by
  induction entries generalizing acc with
  | nil => simp [appendAll]
  | cons e es ih => simp only [appendAll, List.foldl_cons] at *; simp [ih]

theorem scanPage_eq (w : List Char) (acc : List ObjRef) (p : Page) :
    scanPage w acc p
      = acc ++ (p.versions.filter (fun e => containsSub w e.key)
          ++ p.deleteMarkers.filter (fun e => containsSub w e.key)) := by
  simp [scanPage, filterAppend_eq, List.append_assoc]

theorem scanPageAll_eq (acc : List ObjRef) (p : Page) :
    scanPageAll acc p = acc ++ (p.versions ++ p.deleteMarkers) := by
  simp [scanPageAll, appendAll_eq, List.append_assoc]

theorem foldl_scanPage (w : List Char) (pages : List Page) (acc : List ObjRef) :
    pages.foldl (scanPage w) acc
      = acc ++ pages.flatMap (fun p =>
          p.versions.filter (fun e => containsSub w e.key)
            ++ p.deleteMarkers.filter (fun e => containsSub w e.key)) := by
  induction pages generalizing acc with
  | nil => simp
  | cons p ps ih => simp [List.foldl_cons, scanPage_eq, ih, List.append_assoc]

theorem foldl_scanPageAll (pages : List Page) (acc : List ObjRef) :
    pages.foldl scanPageAll acc
      = acc ++ pages.flatMap (fun p => p.versions ++ p.deleteMarkers) := by
  induction pages generalizing acc with
  | nil => simp
  | cons p ps ih => simp [List.foldl_cons, scanPageAll_eq, ih, List.append_assoc]

theorem scanFiltered_eq (w : List Char) (pages : List Page) :
    scanFiltered w pages
      = pages.flatMap (fun p =>
          p.versions.filter (fun e => containsSub w e.key)
            ++ p.deleteMarkers.filter (fun e => containsSub w e.key)) := by
  simp [scanFiltered, foldl_scanPage]

theorem scanAll_eq (pages : List Page) :
    scanAll pages = pages.flatMap (fun p => p.versions ++ p.deleteMarkers) := by
  simp [scanAll, foldl_scanPageAll]

theorem listCalls_no_deletes (bucket pref : List Char) (pages : List Page) :
    (pages.map (fun _ => S3Call.listVersionsCall bucket pref)).filter isDeleteCall
      = [] := by
  induction pages with
  | nil => rfl
  | cons p ps ih => simp [List.filter_cons, isDeleteCall, ih]

theorem pyBatches_nil : pyBatches [] = [] := rfl

theorem pyBatches_length (l : List ObjRef) :
    (pyBatches l).length = (l.length + 999) / 1000 := by
  simp [pyBatches]

theorem pyBatches_le (l b : List ObjRef) (hb : b ∈ pyBatches l) :
    b.length ≤ 1000 := by
  simp only [pyBatches, List.mem_map, List.mem_range] at hb
  obtain ⟨j, hj, rfl⟩ := hb
  simp only [List.length_take]
  omega

theorem pyBatches_map_length (l : List ObjRef) :
    (pyBatches l).map List.length
      = (List.range ((l.length + 999) / 1000)).map
          (fun j => min 1000 (l.length - 1000 * j)) := by
  simp [pyBatches, List.map_map, Function.comp_def, List.length_take, List.length_drop]

theorem pyBatches_cons (l : List ObjRef) (h : l ≠ []) :
    pyBatches l = l.take 1000 :: pyBatches (l.drop 1000) := by
  have hlen : l.length ≠ 0 := by simpa [List.length_eq_zero] using h
  have harith : (l.length + 999) / 1000 = ((l.length - 1000) + 999) / 1000 + 1 := by omega
  unfold pyBatches
  rw [List.length_drop, harith, List.range_succ_eq_map]
  simp only [List.map_cons, List.map_map, Nat.mul_zero, List.drop_zero]
  congr 1
  apply List.map_congr_left
  intro j _
  simp [Function.comp_def, List.drop_drop, Nat.mul_succ, Nat.add_comm]

theorem pyBatches_join (l : List ObjRef) : (pyBatches l).flatten = l := by
  suffices H : ∀ n (l : List ObjRef), l.length = n → (pyBatches l).flatten = l from H _ l rfl
  intro n
  induction n using Nat.strong_induction_on with
  | _ n ih =>
    intro l hn
    by_cases h : l = []
    · subst h; simp [pyBatches_nil]
    · rw [pyBatches_cons l h, List.flatten_cons]
      have hlen : l.length ≠ 0 := by simpa [List.length_eq_zero] using h
      have hd : (l.drop 1000).length < n := by
        rw [List.length_drop]; omega
      rw [ih _ (by omega : (l.drop 1000).length < n) (l.drop 1000) rfl]
      exact List.take_append_drop 1000 l

/-! ### A small-step view of the pagination loop

The scanning loop of deleting_s3_objects.py consumes one listing page per
step and accumulates candidates; it finishes when no page remains.  This is
the state machine used to settle determinism of `scan`. -/

/-- State of the scanning loop: the pages still to fetch together with the
accumulated `objects_to_delete`, or the finished accumulator. -/
inductive ScanState where
  | scanning : List Page → List ObjRef → ScanState
  | finished : List ObjRef → ScanState
deriving DecidableEq

/-- One step of the scanning loop of deleting_s3_objects.py: process the
next page, or finish when the paginator is exhausted. -/
inductive ScanStep (w : List Char) : ScanState → ScanState → Prop where
  | page (p : Page) (rest : List Page) (acc : List ObjRef) :
      ScanStep w (ScanState.scanning (p :: rest) acc)
        (ScanState.scanning rest (scanPage w acc p))
  | finish (acc : List ObjRef) :
      ScanStep w (ScanState.scanning [] acc) (ScanState.finished acc)

/-- Executions of the scanning loop: finitely many steps. -/
def ScanExec (w : List Char) : ScanState → ScanState → Prop :=
  Relation.ReflTransGen (ScanStep w)

theorem scanStep_deterministic {w : List Char} {s t1 t2 : ScanState}
    (h1 : ScanStep w s t1) (h2 : ScanStep w s t2) : t1 = t2 := by
  cases h1 <;> cases h2 <;> rfl

theorem finished_no_step {w : List Char} {r : List ObjRef} {t : ScanState}
    (h : ScanStep w (ScanState.finished r) t) : False := by
  cases h

theorem scanExec_finished_unique {w : List Char} {s : ScanState} {r1 r2 : List ObjRef}
    (h1 : ScanExec w s (ScanState.finished r1))
    (h2 : ScanExec w s (ScanState.finished r2)) : r1 = r2 := by
  induction h1 using Relation.ReflTransGen.head_induction_on with
  | refl =>
    rcases (Relation.ReflTransGen.cases_head h2) with heq | ⟨t, hstep, _⟩
    · injection heq
    · exact absurd hstep finished_no_step
  | head hstep htail ih =>
    rcases (Relation.ReflTransGen.cases_head h2) with heq | ⟨t, hstep2, htail2⟩
    · subst heq; exact absurd hstep finished_no_step
    · exact ih (scanStep_deterministic hstep hstep2 ▸ htail2)

theorem scanExec_run (w : List Char) (pages : List Page) (acc : List ObjRef) :
    ScanExec w (ScanState.scanning pages acc)
      (ScanState.finished (pages.foldl (scanPage w) acc)) := by
  induction pages generalizing acc with
  | nil => exact Relation.ReflTransGen.single (ScanStep.finish acc)
  | cons p ps ih =>
    exact Relation.ReflTransGen.head (ScanStep.page p ps acc) (ih (scanPage w acc p))

/-! ### Concrete data used by witnesses and counterexamples -/

/-- The key a/x.txt of the scan scenario. -/
def keyX : List Char := ['a', '/', 'x', '.', 't', 'x', 't']

/-- The key a/error.txt of the scan scenario. -/
def keyE : List Char := ['a', '/', 'e', 'r', 'r', 'o', 'r', '.', 't', 'x', 't']

/-- The search word error of the scan scenario. -/
def wordError : List Char := ['e', 'r', 'r', 'o', 'r']

/-- The prefix a/ of the scan scenario. -/
def prefA : List Char := ['a', '/']

/-- The single version of a/x.txt. -/
def vX : ObjRef := ⟨keyX, ['1']⟩

/-- The first version of a/error.txt. -/
def vE1 : ObjRef := ⟨keyE, ['1']⟩

/-- The second version of a/error.txt. -/
def vE2 : ObjRef := ⟨keyE, ['2']⟩

/-- The delete marker of a/error.txt. -/
def mE : ObjRef := ⟨keyE, ['3']⟩

/-- The single listing page of the scan scenario. -/
def pageScn : Page := ⟨[vX, vE1, vE2], [mE]⟩

/-- A bucket name. -/
def bktB : List Char := ['b']

/-- A one-entry listing page. -/
def pgOne : Page := ⟨[⟨['k'], ['1']⟩], []⟩

/-- A repeated candidate used to build 2500 entries. -/
def oRep : ObjRef := ⟨['k'], ['v']⟩

/-- 2500 version entries. -/
def objs2500 : List ObjRef := List.replicate 2500 oRep

/-- One listing page holding 2500 version entries. -/
def pages2500 : List Page := [⟨objs2500, []⟩]

/-- First object of the partial-failure scenario. -/
def oP1 : ObjRef := ⟨['k', '1'], ['v']⟩

/-- Second object of the partial-failure scenario. -/
def oP2 : ObjRef := ⟨['k', '2'], ['v']⟩

/-- The listing pages of the partial-failure scenario. -/
def pagesC6 : List Page := [⟨[oP1, oP2], []⟩]

/-- A backend response deleting oP1 but reporting an AccessDenied-style
error for oP2: a partial batch failure. -/
def respPartial : DeleteObjectsResponse := ⟨[oP1], [⟨oP2, ['A', 'D']⟩]⟩

/-- A backend response reporting total success for the same batch. -/
def respAllOk : DeleteObjectsResponse := ⟨[oP1, oP2], []⟩

/-! ### The claims -/

/-- Claim C1: with dryRun = true neither script ever issues a deletion API
call (DeleteObject or DeleteObjects), whatever the listing pages hold and
however many candidates the scan found; the deletion filter of the call
trace is empty. -/
theorem c1_dry_run_no_delete_calls (bucket pref w : List Char) (pages : List Page)
    (rs : List DeleteObjectsResponse) :
    (list_and_delete_objects bucket pref w true pages).calls.filter isDeleteCall = []
    ∧ (delete_all_versions bucket pref true pages rs).calls.filter isDeleteCall = [] := by
  constructor
  · unfold list_and_delete_objects
    by_cases h : (scanFiltered w pages).isEmpty <;>
      simp [h, listCalls_no_deletes, isDeleteCall]
  · unfold delete_all_versions
    by_cases h : (scanAll pages).isEmpty <;>
      simp [h, listCalls_no_deletes, isDeleteCall]

/-- Claim C2: with dryRun = false and a non-empty candidate list, the batch
script issues the listing calls followed by exactly ceil(N/1000) =
(N + 999) / 1000 DeleteObjects calls in batch order; every batch holds at
most 1000 entries, concatenating the batches in order restores the
candidate list exactly (no duplicates, no omissions), and batch j has size
min 1000 (N - 1000 j). -/
theorem c2_batching (bucket pref : List Char) (pages : List Page)
    (rs : List DeleteObjectsResponse) (h : scanAll pages ≠ []) :
    (delete_all_versions bucket pref false pages rs).calls
      = pages.map (fun _ => S3Call.listVersionsCall bucket pref)
        ++ (pyBatches (scanAll pages)).map (fun b => S3Call.deleteObjectsCall bucket b)
    ∧ (pyBatches (scanAll pages)).length = ((scanAll pages).length + 999) / 1000
    ∧ (∀ b ∈ pyBatches (scanAll pages), b.length ≤ 1000)
    ∧ (pyBatches (scanAll pages)).flatten = scanAll pages
    ∧ (pyBatches (scanAll pages)).map List.length
        = (List.range (((scanAll pages).length + 999) / 1000)).map
            (fun j => min 1000 ((scanAll pages).length - 1000 * j)) := by
  have hb : (scanAll pages).isEmpty = false := by
    cases hsc : scanAll pages with
    | nil => exact absurd hsc h
    | cons a l => rfl
  refine ⟨?_, pyBatches_length _, fun b hb => pyBatches_le _ b hb,
    pyBatches_join _, pyBatches_map_length _⟩
  unfold delete_all_versions
  simp [hb]

/-- Claim C2 witness: 2500 candidates with dryRun = false give exactly
3 batches of sizes 1000, 1000 and 500, in that order, whose concatenation
is the candidate list. -/
theorem c2_batching_witness :
    scanAll pages2500 ≠ []
    ∧ (pyBatches (scanAll pages2500)).length = 3
    ∧ (pyBatches (scanAll pages2500)).map List.length = [1000, 1000, 500]
    ∧ (pyBatches (scanAll pages2500)).flatten = scanAll pages2500 := by
  have hs : scanAll pages2500 = objs2500 := by
    simp [scanAll_eq, pages2500]
  have hlen2500 : objs2500.length = 2500 := by
    show (List.replicate 2500 oRep).length = 2500
    rw [List.length_replicate]
  have hne : scanAll pages2500 ≠ [] := by
    rw [hs]
    intro hx
    rw [hx] at hlen2500
    simp at hlen2500
  obtain ⟨_, hlen, _, hflat, hml⟩ := c2_batching bktB prefA pages2500 [] hne
  refine ⟨hne, ?_, ?_, hflat⟩
  · rw [hlen, hs, hlen2500]
  · rw [hml, hs, hlen2500]
    decide

/-- Claim C3: if every entry on every listing page has a key starting with
the requested keyPrefix, then every candidate produced by the filtered scan
has a key starting with keyPrefix and containing the search substring. -/
theorem c3_scan_invariant (pref w : List Char) (pages : List Page)
    (hp : ∀ p ∈ pages, ∀ e ∈ p.versions ++ p.deleteMarkers, hasPref pref e.key = true) :
    ∀ e ∈ scanFiltered w pages, hasPref pref e.key = true ∧ containsSub w e.key = true := by
  intro e he
  rw [scanFiltered_eq] at he
  simp only [List.mem_flatMap, List.mem_append, List.mem_filter] at he
  obtain ⟨p, hpmem, he⟩ := he
  have hkey : e ∈ p.versions ++ p.deleteMarkers ∧ containsSub w e.key = true := by
    rcases he with he | he
    · exact ⟨List.mem_append_left _ he.1, he.2⟩
    · exact ⟨List.mem_append_right _ he.1, he.2⟩
  exact ⟨hp p hpmem e hkey.1, hkey.2⟩

/-- Claim C3 witness: in the scan scenario, the candidate vE1 produced by
the scan has key starting with a/ and containing error. -/
theorem c3_scan_invariant_witness :
    hasPref prefA vE1.key = true ∧ containsSub wordError vE1.key = true :=
  c3_scan_invariant prefA wordError [pageScn] (by decide) vE1 (by decide)

/-- Claim C4: when the scan yields no candidates, each script prints
searching followed only by the no-matches notice and returns: no deletion
call is issued and no purge output is produced, for any dryRun value. -/
theorem c4_empty_scan (bucket pref w : List Char) (dryRun : Bool) (pages : List Page)
    (rs : List DeleteObjectsResponse)
    (h1 : scanFiltered w pages = []) (h2 : scanAll pages = []) :
    (list_and_delete_objects bucket pref w dryRun pages).outputs
        = [Output.searching, Output.noMatches]
    ∧ (list_and_delete_objects bucket pref w dryRun pages).calls.filter isDeleteCall = []
    ∧ (delete_all_versions bucket pref dryRun pages rs).outputs
        = [Output.searching, Output.noMatches]
    ∧ (delete_all_versions bucket pref dryRun pages rs).calls.filter isDeleteCall = [] := by
  unfold list_and_delete_objects delete_all_versions
  simp [h1, h2, listCalls_no_deletes, isDeleteCall]

/-- Claim C4 witness: with no listing pages the scan is empty and both
scripts stop after the no-matches notice, with no deletion call. -/
theorem c4_empty_scan_witness :
    (list_and_delete_objects bktB prefA wordError true []).outputs
        = [Output.searching, Output.noMatches]
    ∧ (list_and_delete_objects bktB prefA wordError true []).calls.filter isDeleteCall = []
    ∧ (delete_all_versions bktB prefA true [] []).outputs
        = [Output.searching, Output.noMatches]
    ∧ (delete_all_versions bktB prefA true [] []).calls.filter isDeleteCall = [] :=
  c4_empty_scan bktB prefA wordError true [] [] rfl rfl

/-- Claim C5, evaluated at the failing input: called with an empty
keyPrefix (and a backend returning one listing page), neither script
validates anything or fails — the ListObjectVersions backend call is still
issued and the run completes normally, so no fail-fast InvalidArgument with
zero backend calls exists in the code. -/
theorem c5_empty_prefix_not_rejected :
    (list_and_delete_objects bktB [] [] true [pgOne]).calls
        = [S3Call.listVersionsCall bktB []]
    ∧ (delete_all_versions bktB [] true [pgOne] []).calls
        = [S3Call.listVersionsCall bktB []] := by
  decide

/-- Claim C6 counterexample: a bulk-delete backend response reporting one
deleted key and one per-key error yields exactly the same run result as a
response reporting total success — the response is discarded; the batch is
reported as two objects deleted (total success) and nothing of the error
appears in the outcome. -/
theorem c6_partial_failure_counterexample :
    delete_all_versions bktB ['k'] false pagesC6 [respPartial]
      = delete_all_versions bktB ['k'] false pagesC6 [respAllOk]
    ∧ (delete_all_versions bktB ['k'] false pagesC6 [respPartial]).outputs
      = [Output.searching, Output.header false, Output.line oP1, Output.line oP2,
         Output.deletingBanner, Output.batchDeleted 2 1, Output.completed] := by
  decide

/-- Claim C6 amended: delete_all_versions discards the DeleteObjects
responses entirely — the run result is independent of them — and in
execution mode with candidates present every batch is reported as
batchDeleted(batch size, batch number), whatever the backend answered. -/
theorem c6_amended_response_discarded (bucket pref : List Char) (dryRun : Bool)
    (pages : List Page) (rs1 rs2 : List DeleteObjectsResponse)
    (h : scanAll pages ≠ []) :
    delete_all_versions bucket pref dryRun pages rs1
      = delete_all_versions bucket pref dryRun pages rs2
    ∧ (delete_all_versions bucket pref false pages rs1).outputs
      = [Output.searching, Output.header false] ++ (scanAll pages).map Output.line
        ++ [Output.deletingBanner]
        ++ (pyBatches (scanAll pages)).enum.map
            (fun bi => Output.batchDeleted bi.2.length (bi.1 + 1))
        ++ [Output.completed] := by
  have hb : (scanAll pages).isEmpty = false := by
    cases hsc : scanAll pages with
    | nil => exact absurd hsc h
    | cons a l => rfl
  constructor
  · rfl
  · unfold delete_all_versions
    simp [hb]

/-- Claim C6 amended witness: on the partial-failure scenario the two runs
with different backend responses coincide. -/
theorem c6_amended_witness :
    scanAll pagesC6 ≠ []
    ∧ delete_all_versions bktB ['k'] true pagesC6 [respPartial]
        = delete_all_versions bktB ['k'] true pagesC6 [respAllOk] :=
  ⟨by decide,
    (c6_amended_response_discarded bktB ['k'] true pagesC6
      [respPartial] [respAllOk] (by decide)).1⟩

/-- Claim C7: the scan deduplicates nothing — for any key, the number of
candidates carrying that key equals the number of version entries with that
key passing the filter plus the number of delete-marker entries with that
key passing the filter, over all pages; and in the concrete scenario
(substring error, a/x.txt with one version, a/error.txt with two versions
and one delete marker) the scan yields exactly the three a/error.txt
entries. -/
theorem c7_no_dedup :
    (∀ (w k : List Char) (pages : List Page),
      (scanFiltered w pages).countP (fun e => e.key == k)
        = (pages.flatMap Page.versions).countP
            (fun e => e.key == k && containsSub w e.key)
          + (pages.flatMap Page.deleteMarkers).countP
            (fun e => e.key == k && containsSub w e.key))
    ∧ scanFiltered wordError [pageScn] = [vE1, vE2, mE] := by
  constructor
  · intro w k pages
    rw [scanFiltered_eq]
    induction pages with
    | nil => rfl
    | cons p ps ih =>
      simp only [List.flatMap_cons, List.countP_append, List.countP_filter, ih]
      omega
  · decide

/-- Claim C8: the scanning loop is deterministic — any two complete
executions of the scan state machine from the same search word, the same
backend pages and the empty accumulator finish with the same candidate
list, element for element and in the same order, and that list is
scanFiltered; hence running scan twice over an unchanged backend yields the
same CandidateSet. -/
theorem c8_scan_deterministic (w : List Char) (pages : List Page) (r1 r2 : List ObjRef)
    (h1 : ScanExec w (ScanState.scanning pages []) (ScanState.finished r1))
    (h2 : ScanExec w (ScanState.scanning pages []) (ScanState.finished r2)) :
    r1 = r2 ∧ r1 = scanFiltered w pages := by
  have hr : r1 = scanFiltered w pages :=
    scanExec_finished_unique h1 (scanExec_run w pages [])
  exact ⟨scanExec_finished_unique h1 h2, hr⟩

/-- Claim C8 witness: two executions of the scanning loop over the scenario
page both finish with the three a/error.txt entries. -/
theorem c8_scan_deterministic_witness :
    [vE1, vE2, mE] = [vE1, vE2, mE]
    ∧ [vE1, vE2, mE] = scanFiltered wordError [pageScn] :=
  c8_scan_deterministic wordError [pageScn] [vE1, vE2, mE] [vE1, vE2, mE]
    (show ScanExec wordError (ScanState.scanning [pageScn] [])
        (ScanState.finished [vE1, vE2, mE]) from scanExec_run wordError [pageScn] [])
    (show ScanExec wordError (ScanState.scanning [pageScn] [])
        (ScanState.finished [vE1, vE2, mE]) from scanExec_run wordError [pageScn] [])

/-- Claim C9: an empty search substring is contained in every key, so the
filtered script's scan with the empty substring produces exactly the
CandidateSet of the unfiltered script's scan over the same pages. -/
theorem c9_empty_filter_eq_unfiltered (pages : List Page) :
    scanFiltered [] pages = scanAll pages := by
  rw [scanFiltered_eq, scanAll_eq]
  simp [containsSub_nil]

/-- Claim C10: candidate order is page order, and within each page all
matching version entries precede all matching delete-marker entries of that
page, for both scripts — each scan equals the page-by-page concatenation of
its filtered versions followed by its filtered delete markers. -/
theorem c10_order (w : List Char) (pages : List Page) :
    scanFiltered w pages
      = pages.flatMap (fun p =>
          p.versions.filter (fun e => containsSub w e.key)
            ++ p.deleteMarkers.filter (fun e => containsSub w e.key))
    ∧ scanAll pages = pages.flatMap (fun p => p.versions ++ p.deleteMarkers) :=
  ⟨scanFiltered_eq w pages, scanAll_eq pages⟩

end S3W
